import Mathlib

/-!
Shallow embedding of the discord-irc relay program (src/main.py) and proofs
of the specification claims about it.  Message text is modelled as `List Char`
(`Str`); Python exceptions are modelled with `Except`; HTTP calls are modelled
by passing their outcome as an explicit parameter.
-/

set_option maxRecDepth 10000

/-- Message text, modelling a Python `str`. -/
abbrev Str := List Char

/-- The whitespace characters recognised by Python `str.split()` / `str.strip()`. -/
def pyIsSpace (c : Char) : Bool :=
  c = ' ' || c = '\t' || c = '\n' || c = '\r' || c = '\x0b' || c = '\x0c'

/-- Python `str.lower()` (ASCII range, which is all the program relies on). -/
def lower (s : Str) : Str := s.map Char.toLower

/-- Worker for `pySplit`: `acc` is the (reversed) word currently being read. -/
def pySplitGo : List Char → List Char → List (List Char)
  | [], acc => if acc.isEmpty then [] else [acc.reverse]
  | c :: rest, acc =>
      if pyIsSpace c then
        if acc.isEmpty then pySplitGo rest [] else acc.reverse :: pySplitGo rest []
      else
        pySplitGo rest (c :: acc)

/-- Python `str.split()` with no argument: split on runs of whitespace,
dropping leading/trailing whitespace and empty words. -/
def pySplit (s : Str) : List Str := pySplitGo s []

/-- Python `' '.join(words)`. -/
def joinSpace : List Str → Str
  | [] => []
  | [w] => w
  | w :: ws => w ++ ' ' :: joinSpace ws

/-- Python `str.strip()`: drop leading and trailing whitespace. -/
def pyStrip (s : Str) : Str :=
  ((s.dropWhile pyIsSpace).reverse.dropWhile pyIsSpace).reverse

/-- Split `s` at the first occurrence of the substring `pat`:
returns `some (before, after)` with `s = before ++ pat ++ after`,
or `none` when `pat` does not occur in `s` (Python `str.find`). -/
def splitAtSub (pat : Str) : Str → Option (Str × Str)
  | [] => if pat.isEmpty then some ([], []) else none
  | c :: cs =>
      if pat.isPrefixOf (c :: cs) then some ([], (c :: cs).drop pat.length)
      else
        match splitAtSub pat cs with
        | some (b, a) => some (c :: b, a)
        | none => none

/-- Python `pat in s` substring test. -/
def containsSub (pat s : Str) : Bool := (splitAtSub pat s).isSome

/-- Python `str.replace(pat, repl)`: replace every (left-to-right,
non-overlapping) occurrence.  `fuel` bounds the recursion; any fuel larger
than the number of occurrences gives the exact Python semantics. -/
def replaceAllSub (pat repl : Str) : Nat → Str → Str
  | 0, s => s
  | fuel + 1, s =>
      match splitAtSub pat s with
      | none => s
      | some (b, a) => b ++ repl ++ replaceAllSub pat repl fuel a

/-- Decimal rendering of a natural number, as character list. -/
def natToStr (n : Nat) : Str := (Nat.repr n).data

section IrcSide

/-!  ## IRC side (`IRCRelayBot`)  -/

/-- `IRCRelayBot.should_ignore_message` (src/main.py:85-97).
`ignored` is `self.ignored_nicknames`, built verbatim (not lowercased) from
the configured list (src/main.py:61); `pats` models the compiled regex
patterns, each as a match predicate on the message body.  The nickname check
short-circuits before any pattern is scanned, exactly as in the source. -/
def should_ignore_message (ignored : List Str) (pats : List (Str → Bool))
    (nickname message : Str) : Bool :=
  ignored.contains (lower nickname) || pats.any (fun p => p message)

/-- One word of the `@mention` pass of `IRCRelayBot.translate_mentions`
(src/main.py:182-191): a word starting with `'@'` whose remainder, lowercased,
is a key of `users` (the `discord_users` cache, name -> user id) is replaced
by the Discord mention token `<@id>`; every other word is left unchanged. -/
def substMention (users : List (Str × Str)) (w : Str) : Str :=
  match w with
  | [] => []
  | c :: u =>
      if c = '@' then
        match users.lookup (lower u) with
        | some uid => '<' :: '@' :: (uid ++ ['>'])
        | none => c :: u
      else c :: u

/-- `IRCRelayBot.translate_mentions` (src/main.py:156-198).
`cache` is the current `self.discord_users`; when it is empty the member
fetch runs, whose outcome is `fetch` (`Except.error` = a raised exception,
`Except.ok users` = the cache contents it produces, possibly empty on a
non-200 response).  A raised exception is caught and the original message
is returned; otherwise the message is split on whitespace, each word put
through the mention substitution, and the words rejoined with single
spaces. -/
def translate_mentions (cache : List (Str × Str))
    (fetch : Except Str (List (Str × Str))) (message : Str) : Str :=
  match (if cache.isEmpty then fetch else Except.ok cache) with
  | Except.error _ => message
  | Except.ok users => joinSpace ((pySplit message).map (substMention users))

/-- One word of the `:emoji:` pass of `IRCRelayBot.send_to_discord`
(src/main.py:135-141): a word that starts and ends with `':'` whose inner
text, lowercased, is a key of `emojis` (the `discord_emojis` cache,
name -> inline token) is replaced by the token; other words are unchanged. -/
def substEmoji (emojis : List (Str × Str)) (w : Str) : Str :=
  if w.head? = some ':' && w.getLast? = some ':' then
    match emojis.lookup (lower (w.drop 1).dropLast) with
    | some tok => tok
    | none => w
  else w

/-- The emoji pass of `IRCRelayBot.send_to_discord` (src/main.py:134-143):
split, substitute each word, rejoin with single spaces. -/
def emojiPass (emojis : List (Str × Str)) (message : Str) : Str :=
  joinSpace ((pySplit message).map (substEmoji emojis))

/-- A webhook POST issued towards Discord. -/
structure WebhookPost where
  url : Str
  username : Str
  content : Str
  deriving DecidableEq, Repr

/-- `IRCRelayBot.send_to_discord` (src/main.py:117-154): look up the webhook
URL for the channel (a missing or empty URL drops the message), translate
mentions, translate emoji, and produce the one webhook POST.  The POST
itself is fire-and-forget: a failed POST is logged, never raised, so the
function's value is just the payload it posts. -/
def send_to_discord (channel_webhook_map : List (Str × Str))
    (cache : List (Str × Str)) (fetch : Except Str (List (Str × Str)))
    (emojis : List (Str × Str)) (irc_channel nickname message : Str) :
    Option WebhookPost :=
  match channel_webhook_map.lookup irc_channel with
  | none => none
  | some url =>
      if url.isEmpty then none
      else
        let translated := translate_mentions cache fetch message
        some ⟨url, nickname, emojiPass emojis translated⟩

/-- Lexicographic order on strings by code point (Python `str` comparison). -/
def lexLe : Str → Str → Bool
  | [], _ => true
  | _ :: _, [] => false
  | a :: as_, b :: bs =>
      if a.val < b.val then true
      else if b.val < a.val then false
      else lexLe as_ bs

/-- Insertion into a `lexLe`-sorted list. -/
def insertLex (x : Str) : List Str → List Str
  | [] => [x]
  | y :: ys => if lexLe x y then x :: y :: ys else y :: insertLex x ys

/-- Python `sorted` on strings (insertion sort; stable, total). -/
def sortLex (l : List Str) : List Str := l.foldr insertLex []

/-- Chunking into groups of `n` (src/main.py:242). `fuel` bounds recursion. -/
def chunksOf (n : Nat) : Nat → List Str → List (List Str)
  | 0, _ => []
  | _, [] => []
  | fuel + 1, l => l.take n :: chunksOf n fuel (l.drop n)

/-- Python `", ".join(...)`. -/
def joinCommaSpace : List Str → Str
  | [] => []
  | [w] => w
  | w :: ws => w ++ ',' :: ' ' :: joinCommaSpace ws

/-- `IRCRelayBot.send_emoji_list` (src/main.py:229-257): the private messages
(target nickname, text) sent in reply to the `!emoji` command — a header with
the emoji count, the sorted emoji names in chunks of 20, and a usage hint. -/
def send_emoji_list (emojis : List (Str × Str)) (nickname : Str) :
    List (Str × Str) :=
  let sorted := sortLex (emojis.map (·.1))
  let chunks := chunksOf 20 sorted.length sorted
  ((nickname, "Available Discord emojis (".data ++ natToStr sorted.length
      ++ " total):".data) ::
    chunks.map (fun ch =>
      (nickname, joinCommaSpace (ch.map (fun e => ':' :: (e ++ [':']))))))
  ++ [(nickname,
      "Use these emojis by surrounding them with colons, e.g., :emoji_name:".data)]

/-- `IRCRelayBot.on_pubmsg` (src/main.py:99-115): returns the webhook POSTs
sent towards Discord and the private IRC messages sent, in order: drop if
ignored; answer the `!emoji` command privately; otherwise relay when the
channel is mapped, and drop silently when it is not. -/
def on_pubmsg (ignored : List Str) (pats : List (Str → Bool))
    (channel_webhook_map : List (Str × Str)) (cache : List (Str × Str))
    (fetch : Except Str (List (Str × Str))) (emojis : List (Str × Str))
    (irc_channel nickname message : Str) :
    List WebhookPost × List (Str × Str) :=
  if should_ignore_message ignored pats nickname message then ([], [])
  else if lower (pyStrip message) = "!emoji".data then
    ([], send_emoji_list emojis nickname)
  else if (channel_webhook_map.lookup irc_channel).isSome then
    ((send_to_discord channel_webhook_map cache fetch emojis irc_channel
        nickname message).toList, [])
  else ([], [])

/-- `IRCRelayBot.start` (src/main.py:64-69): runs the underlying client's
`start()` — whose outcome is the parameter — inside `try/except Exception`,
logging any exception and returning normally.  It therefore never
propagates a failure to its caller. -/
def relayStart (outcome : Except Str Unit) : Except Str Unit :=
  match outcome with
  | Except.error _ => Except.ok ()
  | Except.ok _ => Except.ok ()

/-- `IRCRelayBot.on_disconnect` (src/main.py:200-215): the reconnect loop.
`attempt n` is the outcome the underlying client's `start()` would produce on
the `n`-th reconnect attempt; each iteration sleeps the current delay, calls
`self.start()` (= `relayStart`, which swallows the outcome), breaks when that
call returns without raising, and otherwise doubles the delay capped at 300.
Returns the list of delays slept and whether the loop exited via `break`.
`fuel` bounds the `while True` loop. -/
def reconnectLoop (attempt : Nat → Except Str Unit) :
    Nat → Nat → Nat → List Nat × Bool
  | 0, _, _ => ([], false)
  | fuel + 1, delay, n =>
      match relayStart (attempt n) with
      | Except.ok _ => ([delay], true)
      | Except.error _ =>
          let r := reconnectLoop attempt fuel (min (delay * 2) 300) (n + 1)
          (delay :: r.1, r.2)

/-- `IRCRelayBot.on_disconnect` entry: initial delay 5. -/
def on_disconnect (attempt : Nat → Except Str Unit) (fuel : Nat) :
    List Nat × Bool :=
  reconnectLoop attempt fuel 5 0

end IrcSide

section DiscordSide

/-!  ## Discord side (`DiscordRelayBot`)  -/

/-- The backtick character (code point 96). -/
def backtickChar : Char := Char.ofNat 96

/-- The fenced-code delimiter, three backticks. -/
def fenceDelim : Str := [backtickChar, backtickChar, backtickChar]

/-- A regex `\w` character: letter, digit or underscore (ASCII). -/
def isWordChar (c : Char) : Bool := c.isAlphanum || c = '_'

/-- Content sanitation applied on the Discord side (src/main.py:296,348):
drop null bytes, then normalise `\r\n` and bare `\r` to `\n`. -/
def sanitize (s : Str) : Str :=
  let s1 := replaceAllSub ['\x00'] [] (s.length + 1) s
  let s2 := replaceAllSub ['\r', '\n'] ['\n'] (s1.length + 1) s1
  replaceAllSub ['\r'] ['\n'] (s2.length + 1) s2

/-- `DiscordRelayBot.upload_to_sourcebin` (src/main.py:293-324): the whole
body runs inside `try/except`; `response` is the HTTP outcome
(`Except.error` = a raised transport error, `Except.ok (status, key)` = a
response with that status whose JSON carries `key`).  A 200 response yields
the paste URL; any other status, and any raised error, yields `None` —
nothing ever propagates to the caller. -/
def upload_to_sourcebin (response : Except Str (Nat × Str)) : Option Str :=
  match response with
  | Except.error _ => none
  | Except.ok (status, key) =>
      if status = 200 then some ("https://sourceb.in/".data ++ key)
      else none

/-- First match of the codeblock regex
`(three backticks)(?:(\w+)\n)?([\s\S]*?)(three backticks)` (src/main.py:352)
in `s`: returns `some (before, language group, code group, after)` where
`before`/`after` are the text before/after the whole match.  The optional
language group is taken (greedily) when the text after the opening delimiter
starts with word characters followed by a newline; the non-greedy body runs
to the nearest closing delimiter. -/
def matchFence (s : Str) : Option (Str × Option Str × Str × Str) :=
  match splitAtSub fenceDelim s with
  | none => none
  | some (pre, rest) =>
      let w := rest.takeWhile isWordChar
      let r := rest.dropWhile isWordChar
      if !w.isEmpty && r.head? = some '\n' then
        match splitAtSub fenceDelim (r.drop 1) with
        | some (raw, post) => some (pre, some w, raw, post)
        | none => none
      else
        match splitAtSub fenceDelim rest with
        | some (raw, post) => some (pre, none, raw, post)
        | none => none

/-- The full text of a codeblock regex match (its group 0). -/
def groupZero (lang : Option Str) (raw : Str) : Str :=
  fenceDelim ++ (match lang with | some w => w ++ ['\n'] | none => []) ++ raw
    ++ fenceDelim

/-- All (`re.finditer`) matches of the codeblock regex, each as
(group 0, language group, code group); scanning resumes after each match.
`fuel` bounds the recursion. -/
def fenceMatches : Nat → Str → List (Str × Option Str × Str)
  | 0, _ => []
  | fuel + 1, s =>
      match matchFence s with
      | none => []
      | some (_pre, lang, raw, post) =>
          (groupZero lang raw, lang, raw) :: fenceMatches fuel post

/-- Newline-to-space flattening used for the failure preview
(src/main.py:364). -/
def nlToSpace (c : Char) : Char := if c = '\n' then ' ' else c

/-- The preview used when an upload fails (src/main.py:364): the first 50
characters with newlines flattened to spaces, plus `"..."` exactly when the
code is longer than 50 characters. -/
def codePreview (code : Str) : Str :=
  if code.length > 50 then (code.take 50).map nlToSpace ++ "...".data
  else code.map nlToSpace

/-- The text substituted for one fenced region (src/main.py:358-365):
`[Code: url]` on upload success, `[Code: preview]` on failure.  `upload`
gives the upload outcome for the (stripped) code of the region. -/
def codeblockRepl (upload : Str → Option Str) (code : Str) : Str :=
  match upload code with
  | some url => "[Code: ".data ++ url ++ "]".data
  | none => "[Code: ".data ++ codePreview code ++ "]".data

/-- The codeblock stage of `DiscordRelayBot.on_message` (src/main.py:350-365):
when the content contains the fence delimiter, every regex match of the
original content has all occurrences of its full text replaced by the
bracketed reference, the code being `strip()`ed before upload/preview. -/
def codeblockStage (upload : Str → Option Str) (content : Str) : Str :=
  if containsSub fenceDelim content then
    (fenceMatches (content.length + 1) content).foldl
      (fun c m =>
        replaceAllSub m.1 (codeblockRepl upload (pyStrip m.2.2))
          (c.length + 1) c)
      content
  else content

/-- The mention stage of `DiscordRelayBot.on_message` (src/main.py:367-370):
for each mentioned user, replace `<@id>` and `<@!id>` by `@displayName`. -/
def mentionsStage (mentions : List (Nat × Str)) (content : Str) : Str :=
  mentions.foldl
    (fun c m =>
      let ref := '<' :: '@' :: (natToStr m.1 ++ ['>'])
      let refBang := '<' :: '@' :: '!' :: (natToStr m.1 ++ ['>'])
      let c1 := replaceAllSub ref ('@' :: m.2) (c.length + 1) c
      replaceAllSub refBang ('@' :: m.2) (c1.length + 1) c1)
    content

/-- Parser for one Discord custom-emoji reference `<a?:name:id>`
(the regex at src/main.py:373) starting at the head of `s`; returns the
name and the rest of the string after the reference. -/
def matchEmojiRef (s : Str) : Option (Str × Str) :=
  match s with
  | '<' :: rest =>
      let rest2 :=
        match rest with
        | 'a' :: ':' :: r => some r
        | ':' :: r => some r
        | _ => none
      match rest2 with
      | none => none
      | some r =>
          let name := r.takeWhile (fun c => c.isAlphanum || c = '_')
          let r2 := r.dropWhile (fun c => c.isAlphanum || c = '_')
          if name.isEmpty then none
          else
            match r2 with
            | ':' :: r3 =>
                let digits := r3.takeWhile Char.isDigit
                let r4 := r3.dropWhile Char.isDigit
                if digits.isEmpty then none
                else
                  match r4 with
                  | '>' :: r5 => some (name, r5)
                  | _ => none
            | _ => none
  | _ => none

/-- The emoji-rewrite stage of `DiscordRelayBot.on_message` (src/main.py:373):
`re.sub` of `<a?:name:id>` to `:name:`, scanning left to right, never
rescanning replacement text.  `fuel` bounds the recursion. -/
def emojiBackStage : Nat → Str → Str
  | 0, s => s
  | _ + 1, [] => []
  | fuel + 1, c :: rest =>
      if c = '<' then
        match matchEmojiRef (c :: rest) with
        | some (name, after) =>
            ':' :: (name ++ ':' :: emojiBackStage fuel after)
        | none => c :: emojiBackStage fuel rest
      else c :: emojiBackStage fuel rest

/-- A message received from Discord, as consumed by
`DiscordRelayBot.on_message` (src/main.py:326-407). -/
structure DiscordMessage where
  channel_id : Str
  author_id : Nat
  webhook_id : Option Nat
  author_display_name : Str
  content : Str
  mentions : List (Nat × Str)
  attachments : List (Str × Str)
  embeds : List (Str × Option Str)

/-- The webhook URL reconstructed from a webhook id (src/main.py:339). -/
def webhookUrlOf (wid : Nat) : Str :=
  "https://discord.com/api/webhooks/".data ++ natToStr wid

/-- The IRC line for one piece of text (src/main.py:390-391 and 402): author
name wrapped in mIRC color control codes, then the text; for the main body
the result additionally has newlines flattened and is stripped. -/
def ircFormatted (color : Nat) (author text : Str) : Str :=
  '<' :: '\x03' :: (natToStr color ++ author ++ '\x03' :: '>' :: ' ' :: text)

/-- `DiscordRelayBot.on_message` (src/main.py:326-407): returns the list of
IRC `privmsg` sends (channel, text) it performs.  Drops the message when its
channel id is unmapped, when its author is the relay's own account, or when
it comes from one of the relay's own configured webhooks; otherwise runs the
inbound pipeline (sanitize, codeblocks, mentions, emoji) and emits the main
line (if the content is non-empty) followed by one line per
attachment/embed fragment.  `colorOf` is `get_user_color` bound to the
current memo state; `upload` is the sourcebin upload outcome per code. -/
def on_message (discord_to_irc_map : List (Str × Str)) (self_id : Nat)
    (webhook_map_values : List Str) (upload : Str → Option Str)
    (colorOf : Str → Nat) (msg : DiscordMessage) : List (Str × Str) :=
  match discord_to_irc_map.lookup msg.channel_id with
  | none => []
  | some irc_channel =>
      if msg.author_id = self_id then []
      else if (match msg.webhook_id with
               | some wid =>
                   webhook_map_values.any
                     (fun w => containsSub (webhookUrlOf wid) w)
               | none => false) then []
      else
        let content := sanitize msg.content
        let content := codeblockStage upload content
        let content := mentionsStage msg.mentions content
        let content := emojiBackStage (content.length + 1) content
        let attach := msg.attachments.map
          (fun a => '[' :: (a.1 ++ ':' :: ' ' :: a.2 ++ [']']))
        let embeds := msg.embeds.filterMap
          (fun e => e.2.map (fun u => '[' :: (e.1 ++ ':' :: ' ' :: u ++ [']'])))
        let color := colorOf msg.author_display_name
        let mainMsgs :=
          if content.isEmpty then []
          else [(irc_channel,
                 pyStrip ((ircFormatted color msg.author_display_name
                    content).map nlToSpace))]
        mainMsgs ++ (attach ++ embeds).map
          (fun a => (irc_channel, ircFormatted color msg.author_display_name a))

/-- `DiscordRelayBot.get_user_color` (src/main.py:281-288): memoized
`hash(name) % 12 + 2`.  `h` models the stable hash (the md5 digest of the
name, read as an integer — `hashlib` is an external collaborator, so the
hash itself is a parameter); `state` is `self.username_colors`.  Returns
the color and the updated memo state. -/
def get_user_color (h : Str → Nat) (state : List (Str × Nat))
    (username : Str) : Nat × List (Str × Nat) :=
  match state.lookup username with
  | some c => (c, state)
  | none =>
      let c := h username % 12 + 2
      (c, (username, c) :: state)

/-- The pure color function `get_user_color` memoizes. -/
def colorPure (h : Str → Nat) (name : Str) : Nat := h name % 12 + 2

/-- Invariant of the color memo: every stored color is the pure one. -/
def colorInv (h : Str → Nat) (state : List (Str × Nat)) : Prop :=
  ∀ p ∈ state, p.2 = colorPure h p.1

end DiscordSide

/-!  ## Shared lemmas  -/

/-- A successful association-list lookup exhibits a member of the list. -/
theorem lookup_mem {α β : Type} [BEq α] [LawfulBEq α] (l : List (α × β))
    (a : α) (b : β) (h : l.lookup a = some b) : (a, b) ∈ l := by
  induction l with
  | nil => simp [List.lookup] at h
  | cons p rest ih =>
    obtain ⟨p1, p2⟩ := p
    rw [List.lookup] at h
    by_cases hp : (a == p1) = true
    · have ha : a = p1 := eq_of_beq hp
      subst ha
      simp at h
      subst h
      exact List.mem_cons_self _ _
    · have hb : (a == p1) = false := by simpa using hp
      simp [hb] at h
      exact List.mem_cons_of_mem _ (ih h)

/-!  ## Claims  -/

/-- C1: the spec claims the reconnect loop after an unclean disconnect sleeps
`min(5 * 2^(N-1), 300)` before the `N`-th consecutive attempt, doubling only
after a failed attempt and retrying indefinitely until success.  The code
contradicts this: `IRCRelayBot.start` catches every exception and returns
normally, so the attempt made inside `on_disconnect` can never raise, the
`except` branch that doubles the delay is unreachable, and the loop breaks
after its first iteration even when every reconnect attempt fails.  This
theorem evaluates the code at the failing scenario: for every stream of
attempt outcomes (in particular all-failing ones), the loop sleeps exactly
once, for 5 time-units, and exits. -/
theorem C1_backoff_loop_exits_after_one_attempt
    (attempt : Nat → Except Str Unit) (fuel : Nat) (hfuel : 1 ≤ fuel) :
    (∀ outcome, relayStart outcome = Except.ok ()) ∧
    on_disconnect attempt fuel = ([5], true) := by
  constructor
  · intro outcome
    cases outcome <;> rfl
  · obtain ⟨f, rfl⟩ : ∃ f, fuel = f + 1 := ⟨fuel - 1, by omega⟩
    cases h0 : attempt 0 <;>
      simp [on_disconnect, reconnectLoop, relayStart, h0]

/-- Witness for C1: concrete all-failing attempt stream. -/
theorem C1_backoff_loop_exits_after_one_attempt_witness :
    on_disconnect (fun _ => Except.error "connection refused".data) 3
      = ([5], true) :=
  (C1_backoff_loop_exits_after_one_attempt
      (fun _ => Except.error "connection refused".data) 3 (by decide)).2

/-- C2 counterexample: the claim says every nickname in the configured
ignore set is ignored for every body, but the set is stored verbatim while
the check compares the *lowercased* nickname against it, so a mixed-case
entry such as "Alice" never matches — even the nickname "Alice" itself is
not ignored. -/
theorem C2_mixed_case_ignore_entry_never_matches :
    "Alice".data ∈ ["Alice".data] ∧
    should_ignore_message ["Alice".data] [] "Alice".data "hi".data = false := by
  constructor
  · exact List.mem_singleton.mpr rfl
  · decide

/-- C2 (amended): `should_ignore_message` returns true iff the lowercased
nickname is in the configured set (regardless of body), else defers to the
pattern scan, else false; in particular every *lowercase* entry of the
ignore set is ignored for every body. -/
theorem C2_should_ignore_contract (ignored : List Str)
    (pats : List (Str → Bool)) (nickname message : Str) :
    (ignored.contains (lower nickname) = true →
      should_ignore_message ignored pats nickname message = true) ∧
    (ignored.contains (lower nickname) = false →
      should_ignore_message ignored pats nickname message
        = pats.any (fun p => p message)) ∧
    (nickname ∈ ignored → lower nickname = nickname →
      should_ignore_message ignored pats nickname message = true) := by
  refine ⟨?_, ?_, ?_⟩
  · intro h
    unfold should_ignore_message
    rw [h]
    rfl
  · intro h
    unfold should_ignore_message
    rw [h]
    rfl
  · intro hmem hlow
    have hc : ignored.contains (lower nickname) = true := by
      rw [hlow]
      exact List.elem_iff.mpr hmem
    unfold should_ignore_message
    rw [hc]
    rfl

/-- Witness for C2's amended theorem: a lowercase entry is ignored. -/
theorem C2_should_ignore_contract_witness :
    should_ignore_message ["alice".data] [] "alice".data "any body".data
      = true :=
  (C2_should_ignore_contract ["alice".data] [] "alice".data
      "any body".data).2.2 (by decide) (by decide)

/-- C8: `get_user_color` returns `hash(name) % 12 + 2` (so a color in
2..13), independent of the memo state reached by any prior call sequence
(any state satisfying the memo invariant, which the empty start state does
and every call preserves), hence a pure, restart-stable function of the
name. -/
theorem C8_user_color_pure_and_in_range (h : Str → Nat)
    (state : List (Str × Nat)) (name : Str) (hinv : colorInv h state) :
    (get_user_color h state name).1 = h name % 12 + 2 ∧
    2 ≤ (get_user_color h state name).1 ∧
    (get_user_color h state name).1 ≤ 13 ∧
    colorInv h (get_user_color h state name).2 ∧
    colorInv h ([] : List (Str × Nat)) := by
  have hmod : h name % 12 < 12 := Nat.mod_lt _ (by norm_num)
  have hempty : colorInv h ([] : List (Str × Nat)) := by
    intro p hp
    exact absurd hp (List.not_mem_nil p)
  cases hl : state.lookup name with
  | none =>
    have h1 : (get_user_color h state name).1 = h name % 12 + 2 := by
      unfold get_user_color
      rw [hl]
    have h2 : colorInv h (get_user_color h state name).2 := by
      unfold get_user_color
      rw [hl]
      show colorInv h ((name, h name % 12 + 2) :: state)
      intro p hp
      rcases List.mem_cons.mp hp with hp1 | hp2
      · subst hp1
        rfl
      · exact hinv p hp2
    exact ⟨h1, by rw [h1]; omega, by rw [h1]; omega, h2, hempty⟩
  | some c =>
    have hc : c = colorPure h name := hinv (name, c) (lookup_mem state name c hl)
    have h1 : (get_user_color h state name).1 = h name % 12 + 2 := by
      unfold get_user_color
      rw [hl]
      exact hc
    have h2 : colorInv h (get_user_color h state name).2 := by
      unfold get_user_color
      rw [hl]
      exact hinv
    exact ⟨h1, by rw [h1]; omega, by rw [h1]; omega, h2, hempty⟩

/-- Witness for C8: from the empty memo state, a concrete name's color. -/
theorem C8_user_color_pure_and_in_range_witness :
    2 ≤ (get_user_color (fun s => s.length) [] "bob".data).1 ∧
    (get_user_color (fun s => s.length) [] "bob".data).1 ≤ 13 :=
  ⟨(C8_user_color_pure_and_in_range (fun s => s.length) [] "bob".data
      (fun p hp => absurd hp (List.not_mem_nil p))).2.1,
   (C8_user_color_pure_and_in_range (fun s => s.length) [] "bob".data
      (fun p hp => absurd hp (List.not_mem_nil p))).2.2.1⟩

/-- C6: a Discord message authored by the relay's own account, or coming
from a webhook whose reconstructed URL occurs in one of the configured
outbound webhook URLs, produces zero IRC sends — `on_message` drops it
before any transform or transport call. -/
theorem C6_echo_prevention (d2i : List (Str × Str)) (self_id : Nat)
    (whvals : List Str) (upload : Str → Option Str) (colorOf : Str → Nat)
    (msg : DiscordMessage) :
    (msg.author_id = self_id →
      on_message d2i self_id whvals upload colorOf msg = []) ∧
    (∀ wid, msg.webhook_id = some wid →
      whvals.any (fun w => containsSub (webhookUrlOf wid) w) = true →
      on_message d2i self_id whvals upload colorOf msg = []) := by
  constructor
  · intro ha
    unfold on_message
    split
    · rfl
    · simp [ha]
  · intro wid hw hany
    unfold on_message
    split
    · rfl
    · simp [hw, hany]

/-- Witness for C6: a concrete self-authored message is not relayed. -/
theorem C6_echo_prevention_witness :
    on_message [("1".data, "#chan".data)] 7 [] (fun _ => none) (fun _ => 2)
      ⟨"1".data, 7, none, "relay".data, "hi".data, [], [], []⟩ = [] :=
  (C6_echo_prevention [("1".data, "#chan".data)] 7 [] (fun _ => none)
      (fun _ => 2)
      ⟨"1".data, 7, none, "relay".data, "hi".data, [], [], []⟩).1 rfl

/-- C7: a message on an IRC channel with no webhook mapping produces zero
webhook POSTs (and, when it is neither ignored nor the `!emoji` command, no
sends of any kind); a Discord message on an unmapped channel id produces
zero IRC sends. -/
theorem C7_unmapped_channels_drop (ignored : List Str)
    (pats : List (Str → Bool)) (cmap cache : List (Str × Str))
    (fetch : Except Str (List (Str × Str))) (emojis : List (Str × Str))
    (irc_channel nickname message : Str) (d2i : List (Str × Str))
    (self_id : Nat) (whvals : List Str) (upload : Str → Option Str)
    (colorOf : Str → Nat) (msg : DiscordMessage) :
    (cmap.lookup irc_channel = none →
      (on_pubmsg ignored pats cmap cache fetch emojis irc_channel nickname
          message).1 = []) ∧
    (cmap.lookup irc_channel = none →
      should_ignore_message ignored pats nickname message = false →
      lower (pyStrip message) ≠ "!emoji".data →
      on_pubmsg ignored pats cmap cache fetch emojis irc_channel nickname
          message = ([], [])) ∧
    (d2i.lookup msg.channel_id = none →
      on_message d2i self_id whvals upload colorOf msg = []) := by
  refine ⟨?_, ?_, ?_⟩
  · intro hl
    unfold on_pubmsg
    split
    · rfl
    · split
      · rfl
      · rw [hl]
        rfl
  · intro hl hig hem
    unfold on_pubmsg
    rw [if_neg (by simp [hig]), if_neg hem, hl]
    rfl
  · intro hl
    unfold on_message
    rw [hl]

/-- Witness for C7: concrete unmapped channels on both sides. -/
theorem C7_unmapped_channels_drop_witness :
    on_pubmsg [] [] [("#other".data, "u".data)] [] (Except.ok []) []
        "#chan".data "alice".data "hello".data = ([], []) ∧
    on_message [("5".data, "#chan".data)] 7 [] (fun _ => none) (fun _ => 2)
        ⟨"6".data, 1, none, "bob".data, "hi".data, [], [], []⟩ = [] :=
  ⟨(C7_unmapped_channels_drop [] [] [("#other".data, "u".data)] []
        (Except.ok []) [] "#chan".data "alice".data "hello".data
        [("5".data, "#chan".data)] 7 [] (fun _ => none) (fun _ => 2)
        ⟨"6".data, 1, none, "bob".data, "hi".data, [], [], []⟩).2.1
      (by decide) (by decide) (by decide),
   (C7_unmapped_channels_drop [] [] [("#other".data, "u".data)] []
        (Except.ok []) [] "#chan".data "alice".data "hello".data
        [("5".data, "#chan".data)] 7 [] (fun _ => none) (fun _ => 2)
        ⟨"6".data, 1, none, "bob".data, "hi".data, [], [], []⟩).2.2
      (by decide)⟩

/-- C3: a raised error in the per-message mention transform is caught at the
transform boundary — `translate_mentions` returns the original text — and
the message is still relayed (the webhook POST is still produced, carrying
the emoji pass of the original text); on the inbound side a raised upload
error is caught inside `upload_to_sourcebin`, which returns `None` instead
of propagating. -/
theorem C3_transform_error_caught (err : Str) (emojis cmap : List (Str × Str))
    (irc_channel nickname message url : Str) :
    translate_mentions [] (Except.error err) message = message ∧
    (cmap.lookup irc_channel = some url → url ≠ [] →
      send_to_discord cmap [] (Except.error err) emojis irc_channel nickname
          message
        = some ⟨url, nickname, emojiPass emojis message⟩) ∧
    (∀ e, upload_to_sourcebin (Except.error e) = none) := by
  refine ⟨rfl, ?_, fun e => rfl⟩
  intro hl hurl
  simp only [send_to_discord, hl]
  rw [if_neg (by simp [List.isEmpty_iff, hurl])]
  rfl

/-- Witness for C3: a concrete failing member fetch still yields the POST. -/
theorem C3_transform_error_caught_witness :
    send_to_discord [("#chan".data, "https://hook".data)] []
        (Except.error "boom".data) [] "#chan".data "alice".data
        "hi @bob".data
      = some ⟨"https://hook".data, "alice".data,
          emojiPass [] "hi @bob".data⟩ :=
  (C3_transform_error_caught "boom".data [] [("#chan".data, "https://hook".data)]
      "#chan".data "alice".data "hi @bob".data "https://hook".data).2.1
    (by decide) (by decide)

/-- C4: in the outbound transform, a whitespace-delimited word `@name` whose
remainder (lowercased) is a key of the mention directory becomes the mention
token `<@id>` built from that key's entry; a word `:name:` whose inner name
(lowercased) is a key of the emoji directory becomes that key's token;
unresolved `@`/`:name:` words and non-standalone substrings are left as
literal text — including the spec's concrete examples. -/
theorem C4_mention_emoji_translation (users emojis : List (Str × Str))
    (u uid w tok : Str) :
    (users.lookup (lower u) = some uid →
      substMention users ('@' :: u) = '<' :: '@' :: (uid ++ ['>'])) ∧
    (users.lookup (lower u) = none →
      substMention users ('@' :: u) = '@' :: u) ∧
    (∀ v : Str, v.head? ≠ some '@' → substMention users v = v) ∧
    (emojis.lookup (lower w) = some tok →
      substEmoji emojis (':' :: (w ++ [':'])) = tok) ∧
    (emojis.lookup (lower w) = none →
      substEmoji emojis (':' :: (w ++ [':'])) = ':' :: (w ++ [':'])) ∧
    (∀ v : Str, v.getLast? ≠ some ':' → substEmoji emojis v = v) ∧
    translate_mentions [("alice".data, "42".data)] (Except.ok [])
        "hello @alice".data = "hello <@42>".data ∧
    translate_mentions [("alice".data, "42".data)] (Except.ok [])
        "hello @bob".data = "hello @bob".data ∧
    emojiPass [("smile".data, "[emoji:smile]".data)] ":smile:".data
      = "[emoji:smile]".data ∧
    emojiPass [("smile".data, "[emoji:smile]".data)] "smiley:face".data
      = "smiley:face".data := by
  refine ⟨?_, ?_, ?_, ?_, ?_, ?_, by decide, by decide, by decide, by decide⟩
  · intro h
    simp [substMention, h]
  · intro h
    simp [substMention, h]
  · intro v hv
    cases v with
    | nil => rfl
    | cons c rest =>
      have hc : c ≠ '@' := by
        intro hc
        exact hv (by rw [hc]; rfl)
      simp [substMention, hc]
  · intro h
    have hlast : ((':' :: (w ++ [':'])) : Str).getLast? = some ':' := by
      rw [show (':' :: (w ++ [':']) : Str) = (':' :: w) ++ [':'] by simp]
      exact List.getLast?_concat _
    simp [substEmoji, hlast, List.dropLast_concat, h]
  · intro h
    have hlast : ((':' :: (w ++ [':'])) : Str).getLast? = some ':' := by
      rw [show (':' :: (w ++ [':']) : Str) = (':' :: w) ++ [':'] by simp]
      exact List.getLast?_concat _
    simp [substEmoji, hlast, List.dropLast_concat, h]
  · intro v hv
    simp [substEmoji, hv]

/-- Witness for C4: concrete directory hits and misses. -/
theorem C4_mention_emoji_translation_witness :
    substMention [("bob".data, "7".data)] ('@' :: "Bob".data)
        = '<' :: '@' :: ("7".data ++ ['>']) ∧
    substEmoji [("smile".data, "[emoji:smile]".data)]
        (':' :: ("smile".data ++ [':'])) = "[emoji:smile]".data :=
  ⟨(C4_mention_emoji_translation [("bob".data, "7".data)] [] "Bob".data
      "7".data [] []).1 (by decide),
   (C4_mention_emoji_translation [] [("smile".data, "[emoji:smile]".data)]
      [] [] "smile".data "[emoji:smile]".data).2.2.2.1 (by decide)⟩

/-- C10: a public IRC message from a non-ignored nickname whose trimmed,
lowercased body is `!emoji` triggers only the private emoji-list reply to
the sender — zero webhook POSTs, even when the channel is mapped — and every
reply line is addressed to the sender. -/
theorem C10_emoji_command_private_reply (ignored : List Str)
    (pats : List (Str → Bool)) (cmap cache : List (Str × Str))
    (fetch : Except Str (List (Str × Str))) (emojis : List (Str × Str))
    (irc_channel nickname message : Str)
    (hig : should_ignore_message ignored pats nickname message = false)
    (hcmd : lower (pyStrip message) = "!emoji".data) :
    (on_pubmsg ignored pats cmap cache fetch emojis irc_channel nickname
        message).1 = [] ∧
    (on_pubmsg ignored pats cmap cache fetch emojis irc_channel nickname
        message).2 = send_emoji_list emojis nickname ∧
    (on_pubmsg ignored pats cmap cache fetch emojis irc_channel nickname
        message).2 ≠ [] ∧
    (∀ p ∈ (on_pubmsg ignored pats cmap cache fetch emojis irc_channel
        nickname message).2, p.1 = nickname) := by
  have hmain : on_pubmsg ignored pats cmap cache fetch emojis irc_channel
      nickname message = ([], send_emoji_list emojis nickname) := by
    unfold on_pubmsg
    rw [if_neg (by simp [hig]), if_pos hcmd]
  refine ⟨by rw [hmain], by rw [hmain], ?_, ?_⟩
  · rw [hmain]
    simp [send_emoji_list]
  · intro p hp
    rw [hmain] at hp
    simp only [send_emoji_list] at hp
    rcases List.mem_append.mp hp with hp1 | hp2
    · rcases List.mem_cons.mp hp1 with hp3 | hp4
      · rw [hp3]
      · obtain ⟨ch, _, hch⟩ := List.mem_map.mp hp4
        rw [← hch]
    · rcases List.mem_cons.mp hp2 with hp3 | hp4
      · rw [hp3]
      · exact absurd hp4 (List.not_mem_nil p)

/-- Witness for C10: a concrete `!emoji` message on a mapped channel. -/
theorem C10_emoji_command_private_reply_witness :
    (on_pubmsg [] [] [("#chan".data, "https://hook".data)] []
        (Except.ok []) [("smile".data, "[emoji:smile]".data)] "#chan".data
        "alice".data " !EMOJI ".data).1 = [] :=
  (C10_emoji_command_private_reply [] [] [("#chan".data, "https://hook".data)]
      [] (Except.ok []) [("smile".data, "[emoji:smile]".data)] "#chan".data
      "alice".data " !EMOJI ".data (by decide) (by decide)).1

/-- A fence-regex match implies the content contains the fence delimiter. -/
theorem contains_of_matchFence (content : Str)
    (m : Str × Option Str × Str × Str) (h : matchFence content = some m) :
    containsSub fenceDelim content = true := by
  cases hs : splitAtSub fenceDelim content with
  | none =>
    unfold matchFence at h
    rw [hs] at h
    exact absurd h (by simp)
  | some p => simp [containsSub, hs]

/-- No match means no matches at any fuel. -/
theorem fenceMatches_nil (s : Str) (h : matchFence s = none) (fuel : Nat) :
    fenceMatches fuel s = [] := by
  cases fuel with
  | zero => rfl
  | succ f => simp [fenceMatches, h]

/-- With one match whose tail has none, the match list is a singleton. -/
theorem fenceMatches_single (content pre raw post : Str) (lang : Option Str)
    (h1 : matchFence content = some (pre, lang, raw, post))
    (h2 : matchFence post = none) (fuel : Nat) (hf : 1 ≤ fuel) :
    fenceMatches fuel content = [(groupZero lang raw, lang, raw)] := by
  obtain ⟨f, rfl⟩ : ∃ f, fuel = f + 1 := ⟨fuel - 1, by omega⟩
  simp [fenceMatches, h1, fenceMatches_nil post h2 f]

/-- `str.replace` when the pattern occurs exactly once. -/
theorem replaceAll_single (pat repl s b a : Str)
    (h1 : splitAtSub pat s = some (b, a)) (h2 : splitAtSub pat a = none)
    (fuel : Nat) (hf : 1 ≤ fuel) :
    replaceAllSub pat repl fuel s = b ++ repl ++ a := by
  obtain ⟨f, rfl⟩ : ∃ f, fuel = f + 1 := ⟨fuel - 1, by omega⟩
  have ha : ∀ g, replaceAllSub pat repl g a = a := by
    intro g
    cases g with
    | zero => rfl
    | succ g' => simp [replaceAllSub, h2]
  simp [replaceAllSub, h1, ha]

/-- C5: for an inbound Discord message containing exactly one fenced code
region (expressed through the scanner: the region is the first regex match,
its tail has no further match, and its full text occurs exactly once), the
codeblock stage replaces the entire fenced region — delimiters included —
with `[Code: url]` when the upload succeeds and `[Code: preview]` when it
fails, where the preview is the first 50 characters of the stripped code
with newlines flattened to spaces plus `"..."` exactly when the code
exceeds 50 characters; and a raised upload error yields `None` from
`upload_to_sourcebin` rather than propagating. -/
theorem C5_codeblock_offload (upload : Str → Option Str)
    (content pre raw post : Str) (lang : Option Str) (url : Str)
    (h1 : matchFence content = some (pre, lang, raw, post))
    (h2 : matchFence post = none)
    (h3 : splitAtSub (groupZero lang raw) content = some (pre, post))
    (h4 : splitAtSub (groupZero lang raw) post = none) :
    (upload (pyStrip raw) = some url →
      codeblockStage upload content
        = pre ++ ("[Code: ".data ++ url ++ "]".data) ++ post) ∧
    (upload (pyStrip raw) = none →
      codeblockStage upload content
        = pre ++ ("[Code: ".data ++ codePreview (pyStrip raw) ++ "]".data)
            ++ post) ∧
    ((pyStrip raw).length ≤ 50 →
      codePreview (pyStrip raw) = (pyStrip raw).map nlToSpace) ∧
    ((pyStrip raw).length > 50 →
      codePreview (pyStrip raw)
        = ((pyStrip raw).take 50).map nlToSpace ++ "...".data) ∧
    (∀ e : Str, upload_to_sourcebin (Except.error e) = none) := by
  have hstage : codeblockStage upload content
      = replaceAllSub (groupZero lang raw)
          (codeblockRepl upload (pyStrip raw)) (content.length + 1) content := by
    unfold codeblockStage
    rw [if_pos (contains_of_matchFence content _ h1),
        fenceMatches_single content pre raw post lang h1 h2 _ (by omega)]
    rfl
  have hrepl : replaceAllSub (groupZero lang raw)
      (codeblockRepl upload (pyStrip raw)) (content.length + 1) content
      = pre ++ codeblockRepl upload (pyStrip raw) ++ post :=
    replaceAll_single _ _ content pre post h3 h4 _ (by omega)
  refine ⟨?_, ?_, ?_, ?_, fun e => rfl⟩
  · intro hu
    rw [hstage, hrepl]
    simp [codeblockRepl, hu, List.append_assoc]
  · intro hu
    rw [hstage, hrepl]
    simp [codeblockRepl, hu, List.append_assoc]
  · intro hle
    unfold codePreview
    rw [if_neg (by omega)]
  · intro hgt
    unfold codePreview
    rw [if_pos hgt]

/-- Witness for C5: a concrete single-codeblock message, successful upload. -/
theorem C5_codeblock_offload_witness :
    codeblockStage (fun c => if c = "ab".data then some "u".data else none)
        "x ```py\nab``` y".data
      = "x ".data ++ ("[Code: ".data ++ "u".data ++ "]".data) ++ " y".data :=
  (C5_codeblock_offload
      (fun c => if c = "ab".data then some "u".data else none)
      "x ```py\nab``` y".data "x ".data "ab".data " y".data
      (some "py".data) "u".data rfl rfl rfl rfl).1 rfl

/-- A word as produced by `pySplit`: nonempty and whitespace-free. -/
def wordOK (w : Str) : Prop := w ≠ [] ∧ ∀ c ∈ w, pyIsSpace c = false

mutual

/-- Normal-form checker, at the start of a word: the string must begin with
a non-whitespace character and continue as the rest of a word. -/
def normWord : Str → Bool
  | [] => false
  | c :: rest => !pyIsSpace c && normRest rest

/-- Normal-form checker, inside a word: either the string ends, or a single
space starts a new word, or a non-whitespace character continues this one. -/
def normRest : Str → Bool
  | [] => true
  | c :: rest => if c = ' ' then normWord rest else !pyIsSpace c && normRest rest

end

/-- A string is in normalized form when it is empty or consists of nonempty
whitespace-free words separated by single spaces, with no leading or
trailing whitespace and no whitespace character other than `' '`. -/
def isNormalized (s : Str) : Bool := s.isEmpty || normWord s

/-- The outbound content as posted by `send_to_discord`: the mention pass
(with a populated user directory) followed by the emoji pass. -/
def outboundContent (users emojis : List (Str × Str)) (message : Str) : Str :=
  emojiPass emojis (translate_mentions [] (Except.ok users) message)

/-- Every word produced by the splitter is nonempty and whitespace-free. -/
theorem pySplitGo_wordOK (l : List Char) :
    ∀ acc, (∀ c ∈ acc, pyIsSpace c = false) →
      ∀ w ∈ pySplitGo l acc, wordOK w := by
  induction l with
  | nil =>
    intro acc hacc w hw
    unfold pySplitGo at hw
    by_cases he : acc.isEmpty
    · rw [if_pos he] at hw
      exact absurd hw (List.not_mem_nil w)
    · rw [if_neg he] at hw
      rcases List.mem_singleton.mp hw with rfl
      refine ⟨?_, ?_⟩
      · simp only [List.isEmpty_iff] at he
        simp [he]
      · intro c hc
        exact hacc c (List.mem_reverse.mp hc)
  | cons c rest ih =>
    intro acc hacc w hw
    unfold pySplitGo at hw
    by_cases hs : pyIsSpace c = true
    · rw [if_pos hs] at hw
      by_cases he : acc.isEmpty
      · rw [if_pos he] at hw
        exact ih [] (by simp) w hw
      · rw [if_neg he] at hw
        rcases List.mem_cons.mp hw with rfl | hw2
        · refine ⟨?_, ?_⟩
          · simp only [List.isEmpty_iff] at he
            simp [he]
          · intro d hd
            exact hacc d (List.mem_reverse.mp hd)
        · exact ih [] (by simp) w hw2
    · rw [if_neg hs] at hw
      refine ih (c :: acc) ?_ w hw
      intro d hd
      rcases List.mem_cons.mp hd with rfl | hd2
      · simpa using hs
      · exact hacc d hd2

/-- `normRest` passes over a whitespace-free block. -/
theorem normRest_through (w : Str) (r : Str)
    (hw : ∀ c ∈ w, pyIsSpace c = false) :
    normRest (w ++ r) = normRest r := by
  induction w with
  | nil => rfl
  | cons c w' ih =>
    have hc : pyIsSpace c = false := hw c (List.mem_cons_self c w')
    have hc' : c ≠ ' ' := by
      intro h
      rw [h] at hc
      simp [pyIsSpace] at hc
    simp [normRest, hc, hc',
      ih (fun d hd => hw d (List.mem_cons_of_mem c hd))]

/-- Joining nonempty whitespace-free words with single spaces passes the
word-start checker. -/
theorem joinSpace_normWord (ws : List Str) (hne : ws ≠ [])
    (h : ∀ w ∈ ws, wordOK w) : normWord (joinSpace ws) = true := by
  induction ws with
  | nil => exact absurd rfl hne
  | cons w ws' ih =>
    obtain ⟨hwne, hchars⟩ := h w (List.mem_cons_self _ _)
    obtain ⟨c, w', rfl⟩ := List.exists_cons_of_ne_nil hwne
    have hc : pyIsSpace c = false := hchars c (List.mem_cons_self _ _)
    have hw' : ∀ d ∈ w', pyIsSpace d = false :=
      fun d hd => hchars d (List.mem_cons_of_mem c hd)
    cases ws' with
    | nil =>
      have hr : normRest w' = true := by
        have := normRest_through w' [] hw'
        simpa using this
      simp [joinSpace, normWord, hc, hr]
    | cons v vs =>
      have hih : normWord (joinSpace (v :: vs)) = true :=
        ih (by simp) (fun u hu => h u (List.mem_cons_of_mem _ hu))
      have hr : normRest (w' ++ ' ' :: joinSpace (v :: vs)) = true := by
        rw [normRest_through w' _ hw']
        simp [normRest, hih]
      simp [joinSpace, normWord, hc, hr]

/-- Joining `wordOK` words yields a normalized string. -/
theorem joinSpace_isNormalized (ws : List Str) (h : ∀ w ∈ ws, wordOK w) :
    isNormalized (joinSpace ws) = true := by
  cases ws with
  | nil => rfl
  | cons w ws' =>
    have := joinSpace_normWord (w :: ws') (by simp) h
    simp [isNormalized, this]

/-- The emoji substitution preserves `wordOK` when every directory token is
nonempty and whitespace-free. -/
theorem substEmoji_wordOK (emojis : List (Str × Str))
    (he : ∀ p ∈ emojis, p.2 ≠ [] ∧ ∀ c ∈ p.2, pyIsSpace c = false)
    (w : Str) (hw : wordOK w) : wordOK (substEmoji emojis w) := by
  unfold substEmoji
  by_cases hcond : (w.head? = some ':' && w.getLast? = some ':') = true
  · rw [if_pos hcond]
    cases hl : emojis.lookup (lower (w.drop 1).dropLast) with
    | none => exact hw
    | some tok =>
      exact he (lower (w.drop 1).dropLast, tok) (lookup_mem _ _ _ hl)
  · rw [if_neg hcond]
    exact hw

/-- C9: the outbound transform rejoins whitespace-split tokens with single
spaces, so (given whitespace-free nonempty emoji tokens) its output is
always in normalized form — runs of whitespace, tabs and leading/trailing
whitespace are collapsed — it is the identity only on already-normalized
messages, the posted webhook content is exactly this transform, and a
concrete non-normalized message collapses as claimed. -/
theorem C9_whitespace_collapse (users emojis : List (Str × Str))
    (message : Str)
    (he : ∀ p ∈ emojis, p.2 ≠ [] ∧ ∀ c ∈ p.2, pyIsSpace c = false) :
    isNormalized (outboundContent users emojis message) = true ∧
    (outboundContent users emojis message = message →
      isNormalized message = true) ∧
    (∀ (cmap : List (Str × Str)) (irc_channel nickname url : Str),
      cmap.lookup irc_channel = some url → url ≠ [] →
      send_to_discord cmap [] (Except.ok users) emojis irc_channel nickname
          message
        = some ⟨url, nickname, outboundContent users emojis message⟩) ∧
    outboundContent [] [] " a \t b ".data = "a b".data := by
  have h1 : isNormalized (outboundContent users emojis message) = true := by
    unfold outboundContent emojiPass
    refine joinSpace_isNormalized _ ?_
    intro w hw
    obtain ⟨v, hv, rfl⟩ := List.mem_map.mp hw
    exact substEmoji_wordOK emojis he v
      (pySplitGo_wordOK _ [] (by simp) v hv)
  refine ⟨h1, ?_, ?_, by decide⟩
  · intro hid
    rw [← hid]
    exact h1
  · intro cmap irc_channel nickname url hl hurl
    simp only [send_to_discord, hl]
    rw [if_neg (by simp [List.isEmpty_iff, hurl])]
    rfl

/-- Witness for C9: concrete whitespace collapse through the transform. -/
theorem C9_whitespace_collapse_witness :
    isNormalized (outboundContent [] [] "  hello \t world ".data) = true ∧
    outboundContent [] [] " a \t b ".data = "a b".data :=
  ⟨(C9_whitespace_collapse [] [] "  hello \t world ".data (by simp)).1,
   (C9_whitespace_collapse [] [] "x".data (by simp)).2.2.2⟩
